import Mathlib

/- Verification development for the mkdmfs manifest-assembly pipeline
   (src/main.rs). The pipeline is embedded shallowly: the host file system
   is a pair of functions (existence test, file reader), the network is a
   function from URLs to optional response bodies, and the `main` pipeline
   is a pure function from settings, file system and network to a trace of
   host-I/O events together with either a build error or the manifest that
   is handed to the dmfs encoder.

   Modelling notes, in source order:
   - Paths are lists of components; pushing a relative path string splits it
     on the separator and drops empty and "." components, as std::path does
     for relative paths (absolute-path replacement on push is not modelled:
     the manifest paths in play are relative to the config directory).
   - load_file collapses the open failure and the read failure of
     src/main.rs lines 562-575 into one fatal outcome (readFile = none).
   - create_dir_all, File::create and io::copy host failures are modelled as
     always succeeding; their error arms are straight fatal_error calls that
     no claim depends on. The create_dir_all invocation itself is recorded
     in the event trace, as are fetches, file creations, writes and reads.
   - Verbose println output is not modelled.
   - fatal_error (eprintln + exit(1)) is the BuildError.fatal outcome; a
     Rust panic (an unwrap on None/Err) is the distinct BuildError.panicked
     outcome.
   - The dmfs crate (Manifest, to_image) is an external dependency, not part
     of this repository's src/; mainManifest therefore returns the ordered
     object list exactly as it is handed to Manifest::to_image. -/

namespace Mkdmfs

/-- Payload bytes, treated as opaque. -/
abbrev Bytes := List Nat

/-- Host file-system path as a list of components. -/
abbrev HostPath := List String

/-- Split a character list on the path separator. -/
def splitOnSlash : List Char → List (List Char)
  | [] => [[]]
  | c :: rest =>
    if c = '/' then [] :: splitOnSlash rest
    else
      match splitOnSlash rest with
      | [] => [[c]]
      | comp :: comps => (c :: comp) :: comps

/-- Components of a relative path string: split on the separator and drop
empty and "." components, keeping "..", mirroring std::path parsing. -/
def splitPath (s : String) : List String :=
  ((splitOnSlash s.toList).map (fun cs => String.mk cs)).filter
    (fun c => !(c == "" || c == "."))

/-- PathBuf::push of a relative path string. -/
def pushPath (p : HostPath) (s : String) : HostPath := p ++ splitPath s

/-- Render a component path back to a string, separator-joined
(Path::to_str on the pushed components). -/
def pathToString : HostPath → String
  | [] => ""
  | [c] => c
  | c :: rest => c ++ "/" ++ pathToString rest

/-- Path::file_name on a component path: the last component, unless the path
terminates in ".." or has no components. -/
def fileNameOfPath (p : HostPath) : Option String :=
  match p.getLast? with
  | some c => if c = ".." then none else some c
  | none => none

/-- Path::file_name of a path given as a string. -/
def pathFileName (s : String) : Option String := fileNameOfPath (splitPath s)

/-- The architecture family tokens of the alternation in src/main.rs line
583, in pattern order. -/
def archTokens : List (List Char) :=
  ["riscv".toList, "aarch64".toList, "arm".toList, "powerpc64".toList, "x86_64".toList]

/-- Leftmost-first match of the family-token alternation against a character
list: scan positions left to right and at each position try the alternation
branches in pattern order, as the regex engine does for this pattern. -/
def get_base_arch_chars : List Char → Option (List Char)
  | [] => none
  | c :: rest =>
    match archTokens.find? (fun t => t.isPrefixOf (c :: rest)) with
    | some t => some t
    | none => get_base_arch_chars rest

/-- get_base_arch of src/main.rs lines 581-591: extract the base
architecture from a full target string, or none when nothing matches. -/
def get_base_arch (s : String) : Option String :=
  (get_base_arch_chars s.toList).map (fun cs => String.mk cs)

/-- Tag set of dmfs manifest objects. -/
inductive ManifestObjectType
  | BootMsg
  | SystemService
  | GuestOS
  deriving DecidableEq

/-- Payload representation of a manifest object. -/
inductive ManifestObjectData
  | Bytes (b : Mkdmfs.Bytes)
  deriving DecidableEq

/-- One manifest entry: kind, name, description, payload, properties. -/
structure ManifestObject where
  kind : ManifestObjectType
  name : String
  description : String
  data : ManifestObjectData
  properties : Option (List String)
  deriving DecidableEq

/-- Host file system: an existence test (Path::exists, true for files and
directories alike) and a file reader (open + read_to_end; none models
either failing). -/
structure FS where
  pathExists : HostPath → Bool
  readFile : HostPath → Option Bytes

/-- Effect of create_dir_all: the directory and its ancestors exist
afterwards; files are untouched. -/
def FS.withDir (fs : FS) (d : HostPath) : FS :=
  { pathExists := fun q => q.isPrefixOf d || fs.pathExists q
    readFile := fs.readFile }

/-- Effect of creating and writing a file at a path. -/
def FS.withFile (fs : FS) (p : HostPath) (b : Bytes) : FS :=
  { pathExists := fun q => q == p || fs.pathExists q
    readFile := fun q => if q = p then some b else fs.readFile q }

/-- Network model: get url is none when the request itself fails
(reqwest::get returns Err), some none when the request succeeds but reading
the response body fails (Response::bytes returns Err), and some (some b)
when the whole body b is retrieved. -/
structure Net where
  get : String → Option (Option Bytes)

/-- Host-I/O events recorded by the pipeline, in execution order. -/
inductive Event
  | createDirAll (d : HostPath)
  | fetch (url : String)
  | createFile (p : HostPath)
  | writeFile (p : HostPath)
  | readFile (p : HostPath)
  deriving DecidableEq

/-- How a build terminates early: a fatal_error diagnostic followed by
exit(1), or a Rust panic from an unwrap. -/
inductive BuildError
  | fatal (msg : String)
  | panicked
  deriving DecidableEq

/-- load_file of src/main.rs lines 556-578: read a file or bail out. -/
def load_file (fs : FS) (p : HostPath) : List Event × Except BuildError Bytes :=
  match fs.readFile p with
  | some b => ([Event.readFile p], Except.ok b)
  | none => ([], Except.error (BuildError.fatal ("Can't open file " ++ pathToString p)))

/-- banners table of the manifest configuration. -/
structure Banners where
  path : Option String
  welcome : Option String
  deriving DecidableEq

/-- services table of the manifest configuration; includeNames embeds the
"include" array (include is a reserved word here). -/
structure Services where
  includeNames : Option (List String)
  deriving DecidableEq

/-- One service.name table of the manifest configuration. -/
structure Service where
  path : String
  description : String
  properties : Option (List String)
  deriving DecidableEq

/-- One guest.label table of the manifest configuration. -/
structure Guest where
  path : String
  url : Option String
  description : String
  deriving DecidableEq

/-- One target.arch table of the manifest configuration. -/
structure Target where
  guests : Option (List String)
  deriving DecidableEq

/-- Parsed manifest configuration consumed by the pipeline (the defaults
table is consumed by Settings::new before the pipeline starts and is
already folded into Settings). Hash tables are embedded as association
lists with List.lookup as get. -/
structure Config where
  banners : Option Banners
  services : Option Services
  service : Option (List (String × Service))
  guest : Option (List (String × Guest))
  target : Option (List (String × Target))

/-- Resolved settings handed to main. -/
structure Settings where
  config_dir : HostPath
  output_filename : Option String
  target_arch : Option String
  quality : Option String
  verbose : Bool
  no_downloads : Bool
  no_services : Bool
  no_guests : Bool
  config : Config

/-- Result of one pipeline stage: the I/O trace plus either an early
termination or the manifest objects contributed. -/
abbrev PhaseResult := List Event × Except BuildError (List ManifestObject)

/-- Sequence two stages: run the first; on success append the second's
trace and objects, otherwise stop with the first's trace and error. -/
def seqPhase (a b : PhaseResult) : PhaseResult :=
  match a with
  | (ev, Except.error e) => (ev, Except.error e)
  | (ev, Except.ok objs) =>
    match b with
    | (ev2, Except.error e) => (ev ++ ev2, Except.error e)
    | (ev2, Except.ok objs2) => (ev ++ ev2, Except.ok (objs ++ objs2))

/-- Architecture-specific banner, src/main.rs lines 292-312: included only
when a banner directory is configured, a target architecture is set and a
family token is recognized; the object name is file_name().unwrap() of the
banner path (panicked models the unwrap on None). -/
def archBannerPart (st : Settings) (banners : Banners) (base : HostPath) (fs : FS) :
    PhaseResult :=
  match banners.path with
  | none => ([], Except.ok [])
  | some banner_dir =>
    match st.target_arch with
    | none => ([], Except.ok [])
    | some ta =>
      match get_base_arch ta with
      | none => ([], Except.ok [])
      | some base_arch =>
        let p := pushPath (pushPath base banner_dir) (base_arch ++ ".txt")
        match fileNameOfPath p with
        | none => ([], Except.error BuildError.panicked)
        | some nm =>
          match load_file fs p with
          | (ev, Except.error e) => (ev, Except.error e)
          | (ev, Except.ok bytes) =>
            (ev, Except.ok [{ kind := ManifestObjectType.BootMsg, name := nm,
                              description := "Boot banner text for " ++ base_arch ++ " systems",
                              data := ManifestObjectData.Bytes bytes, properties := none }])

/-- Generic welcome banner, src/main.rs lines 314-327: the object name is
Path::new(welcome).file_name().unwrap(), evaluated before the file is
loaded (argument order of ManifestObject::new); unwrap on None panics. -/
def welcomePart (banners : Banners) (base : HostPath) (fs : FS) : PhaseResult :=
  match banners.welcome with
  | none => ([], Except.ok [])
  | some welcome =>
    let p := pushPath base welcome
    match pathFileName welcome with
    | none => ([], Except.error BuildError.panicked)
    | some nm =>
      match load_file fs p with
      | (ev, Except.error e) => (ev, Except.error e)
      | (ev, Except.ok bytes) =>
        (ev, Except.ok [{ kind := ManifestObjectType.BootMsg, name := nm,
                          description := "Main boot banner text",
                          data := ManifestObjectData.Bytes bytes, properties := none }])

/-- Banner stage, src/main.rs lines 289-328. -/
def bannersPhase (st : Settings) (base : HostPath) (fs : FS) : PhaseResult :=
  match st.config.banners with
  | none => ([], Except.ok [])
  | some banners =>
    seqPhase (archBannerPart st banners base fs) (welcomePart banners base fs)

/-- Service payload path, src/main.rs lines 345-370: base, the service
source directory, "target", then the target-architecture component exactly
when that path exists on disk, then - only when a quality is set - the
quality component and the service name. -/
def resolveServicePath (base : HostPath) (svc_path : String)
    (target_arch quality : Option String) (fs : FS) (service_name : String) : HostPath :=
  let p := pushPath (pushPath base svc_path) "target"
  let p2 := match target_arch with
    | some ta => if fs.pathExists (pushPath p ta) then pushPath p ta else p
    | none => p
  match quality with
  | some q => pushPath (pushPath p2 q) service_name
  | none => p2

/-- One service of the include list, src/main.rs lines 340-381: names
absent from the service catalog are skipped without any effect. -/
def serviceStep (st : Settings) (base : HostPath) (fs : FS)
    (catalog : List (String × Service)) (service_name : String) : PhaseResult :=
  match List.lookup service_name catalog with
  | none => ([], Except.ok [])
  | some service =>
    let p := resolveServicePath base service.path st.target_arch st.quality fs service_name
    match load_file fs p with
    | (ev, Except.error e) => (ev, Except.error e)
    | (ev, Except.ok bytes) =>
      (ev, Except.ok [{ kind := ManifestObjectType.SystemService, name := service_name,
                        description := service.description,
                        data := ManifestObjectData.Bytes bytes,
                        properties := service.properties }])

/-- Run a stage body over a list of names, sequencing traces and objects. -/
def runList (f : String → PhaseResult) : List String → PhaseResult
  | [] => ([], Except.ok [])
  | x :: xs => seqPhase (f x) (runList f xs)

/-- Service stage, src/main.rs lines 330-384. -/
def servicesPhase (st : Settings) (base : HostPath) (fs : FS) : PhaseResult :=
  match st.config.services, st.no_services with
  | some services, false =>
    match st.config.service with
    | none => ([], Except.ok [])
    | some available_services =>
      match services.includeNames with
      | none => ([], Except.ok [])
      | some services_to_include =>
        runList (serviceStep st base fs available_services) services_to_include
  | _, _ => ([], Except.ok [])

/-- Fatal message of src/main.rs line 477. -/
def guestUndefinedMsg (guest target_arch : String) : String :=
  "Guest " ++ guest ++ " required by target architecture " ++ target_arch ++ " not defined"

/-- Fatal message of src/main.rs line 460. -/
def guestMissingMsg (p : HostPath) : String :=
  "Can't find guest OS file " ++ pathToString p

/-- One guest of the target's guest list, src/main.rs lines 408-478:
look the label up in the catalog (fatal when undefined), unconditionally
create_dir_all the guest directory, then - when the guest file is absent -
either fetch and persist it (a failing body read hits the unwrap of line
449 and panics) or, with no URL or downloads disabled, fail fatally; in
all surviving cases load the file into a GuestOS object. -/
def guestStep (st : Settings) (base : HostPath) (net : Net)
    (catalog : List (String × Guest)) (target_arch : String)
    (acc : FS) (guest : String) :
    List Event × Except BuildError (List ManifestObject × FS) :=
  match List.lookup guest catalog with
  | none => ([], Except.error (BuildError.fatal (guestUndefinedMsg guest target_arch)))
  | some g =>
    let dir := pushPath base g.path
    let fs1 := acc.withDir dir
    let path := pushPath dir guest
    if fs1.pathExists path then
      match load_file fs1 path with
      | (ev, Except.error e) => (Event.createDirAll dir :: ev, Except.error e)
      | (ev, Except.ok bytes) =>
        (Event.createDirAll dir :: ev,
         Except.ok ([{ kind := ManifestObjectType.GuestOS, name := guest,
                       description := g.description,
                       data := ManifestObjectData.Bytes bytes,
                       properties := none }], fs1))
    else
      match g.url, st.no_downloads with
      | some url, false =>
        match net.get url with
        | none =>
          ([Event.createDirAll dir, Event.fetch url],
           Except.error (BuildError.fatal ("Can't fetch " ++ url ++ " for " ++ guest)))
        | some body =>
          match body with
          | none =>
            ([Event.createDirAll dir, Event.fetch url, Event.createFile path],
             Except.error BuildError.panicked)
          | some bytes =>
            let fs2 := fs1.withFile path bytes
            match load_file fs2 path with
            | (ev, Except.error e) =>
              ([Event.createDirAll dir, Event.fetch url, Event.createFile path,
                Event.writeFile path] ++ ev, Except.error e)
            | (ev, Except.ok b2) =>
              ([Event.createDirAll dir, Event.fetch url, Event.createFile path,
                Event.writeFile path] ++ ev,
               Except.ok ([{ kind := ManifestObjectType.GuestOS, name := guest,
                             description := g.description,
                             data := ManifestObjectData.Bytes b2,
                             properties := none }], fs2))
      | _, _ =>
        ([Event.createDirAll dir], Except.error (BuildError.fatal (guestMissingMsg path)))

/-- Fold guestStep over the guest list, threading the file system (fetched
files and created directories are visible to later guests). -/
def runGuests (st : Settings) (base : HostPath) (net : Net)
    (catalog : List (String × Guest)) (target_arch : String) :
    FS → List String → PhaseResult
  | _, [] => ([], Except.ok [])
  | acc, g :: gs =>
    match guestStep st base net catalog target_arch acc g with
    | (ev, Except.error e) => (ev, Except.error e)
    | (ev, Except.ok (objs, fs2)) =>
      match runGuests st base net catalog target_arch fs2 gs with
      | (ev2, Except.error e) => (ev ++ ev2, Except.error e)
      | (ev2, Except.ok rest) => (ev ++ ev2, Except.ok (objs ++ rest))

/-- Guest stage, src/main.rs lines 386-483: only runs when a target
architecture is set and guests are not skipped; an absent guest catalog is
an empty table. -/
def guestsPhase (st : Settings) (base : HostPath) (fs : FS) (net : Net) : PhaseResult :=
  match st.target_arch, st.no_guests with
  | some target_arch, false =>
    match st.config.target with
    | none => ([], Except.ok [])
    | some possible_targets =>
      match List.lookup target_arch possible_targets with
      | none => ([], Except.ok [])
      | some target_entry =>
        match target_entry.guests with
        | none => ([], Except.ok [])
        | some targets_guests =>
          runGuests st base net ((st.config.guest).getD []) target_arch fs targets_guests
  | _, _ => ([], Except.ok [])

/-- The manifest-assembly pipeline of main, src/main.rs lines 276-490:
banners, then services, then guests, in that fixed order; the ok payload is
the ordered object list handed to Manifest::to_image. -/
def mainManifest (st : Settings) (fs : FS) (net : Net) : PhaseResult :=
  seqPhase (bannersPhase st st.config_dir fs)
    (seqPhase (servicesPhase st st.config_dir fs) (guestsPhase st st.config_dir fs net))

/-- Modelled from the spec: the service payload path as the amended
specification words it - base, then the service source directory, then
"target", then the architecture segment exactly when a path of that name
exists under target, then, exactly when a quality setting is present, the
quality segment followed by the service name. Written independently of
resolveServicePath for comparison with it. -/
def servicePathSpec (base : HostPath) (svc_path : String)
    (target_arch quality : Option String) (fs : FS) (service_name : String) : HostPath :=
  let upToTarget := base ++ splitPath svc_path ++ ["target"]
  let archSeg := match target_arch with
    | some ta => if fs.pathExists (upToTarget ++ splitPath ta) then splitPath ta else []
    | none => []
  let qualSeg := match quality with
    | some q => splitPath q ++ splitPath service_name
    | none => []
  upToTarget ++ archSeg ++ qualSeg

/-- Concrete empty file system used by closed evaluations. -/
def fsEmpty : FS := { pathExists := fun _ => false, readFile := fun _ => none }

/-- Concrete network on which every request fails. -/
def netNone : Net := { get := fun _ => none }

/-- Boolean path-prefix test agrees with the prefix relation. -/
theorem isPrefixOf_true_iff {α : Type} [BEq α] [LawfulBEq α] (l1 l2 : List α) :
    l1.isPrefixOf l2 = true ↔ l1 <+: l2 :=
  List.isPrefixOf_iff_prefix

/-- Every family token is nonempty. -/
theorem archTokens_ne_nil : ∀ t ∈ archTokens, t ≠ [] := by decide

/-- When a family token occurs in the string and no other family token
occurs anywhere in it, the leftmost-first scan returns exactly that
token. -/
theorem get_base_arch_chars_eq_of_unique (s t : List Char) (ht : t ∈ archTokens)
    (hsub : t <:+: s) (huniq : ∀ t' ∈ archTokens, t' <:+: s → t' = t) :
    get_base_arch_chars s = some t := by
  induction s with
  | nil =>
    rcases hsub with ⟨u, v, huv⟩
    have hnil : t = [] := by
      cases u <;> simp_all
    exact absurd hnil (archTokens_ne_nil t ht)
  | cons c rest ih =>
    cases hfind : archTokens.find? (fun x => x.isPrefixOf (c :: rest)) with
    | some t' =>
      have hb : t'.isPrefixOf (c :: rest) = true := by simpa using List.find?_some hfind
      have hp : t' <+: c :: rest := isPrefixOf_true_iff t' (c :: rest) |>.mp hb
      have hmem : t' ∈ archTokens := List.mem_of_find?_eq_some hfind
      have heq : t' = t := huniq t' hmem hp.isInfix
      simp [get_base_arch_chars, hfind, heq]
    | none =>
      have hnp : ¬ t <+: c :: rest := by
        intro hp
        exact List.find?_eq_none.mp hfind t ht (isPrefixOf_true_iff t (c :: rest) |>.mpr hp)
      have hsub' : t <:+: rest := by
        rcases hsub with ⟨u, v, huv⟩
        cases u with
        | nil =>
          exact absurd ⟨v, by simpa using huv⟩ hnp
        | cons a u' =>
          simp only [List.cons_append] at huv
          injection huv with h1 h2
          exact ⟨u', v, h2⟩
      have huniq' : ∀ t' ∈ archTokens, t' <:+: rest → t' = t :=
        fun t' hm hi => huniq t' hm (List.infix_cons hi)
      simp [get_base_arch_chars, hfind, ih hsub' huniq']

/-- When no family token occurs in the string, the scan returns none. -/
theorem get_base_arch_chars_eq_none (s : List Char)
    (h : ∀ t ∈ archTokens, ¬ t <:+: s) : get_base_arch_chars s = none := by
  induction s with
  | nil => rfl
  | cons c rest ih =>
    have hfind : archTokens.find? (fun x => x.isPrefixOf (c :: rest)) = none := by
      refine List.find?_eq_none.mpr ?_
      intro t htm hbp
      exact h t htm (isPrefixOf_true_iff t (c :: rest) |>.mp hbp).isInfix
    have h' : ∀ t ∈ archTokens, ¬ t <:+: rest :=
      fun t htm hi => h t htm (List.infix_cons hi)
    simp [get_base_arch_chars, hfind, ih h']

/-- String append distributes over toList. -/
theorem toList_append (a b : String) : (a ++ b).toList = a.toList ++ b.toList := by
  simp [String.toList, String.data_append]

/-- A string is an infix of any string extension on the left. -/
theorem infix_of_infix_append_left (x t : String) (g : List Char) (h : g <:+: t.toList) :
    g <:+: (x ++ t).toList := by
  rcases h with ⟨u, v, huv⟩
  exact ⟨x.toList ++ u, v, by simp [toList_append, List.append_assoc, huv]⟩

/-- The right operand of a string append is an infix of the result. -/
theorem infix_toList_right (x a : String) : a.toList <:+: (x ++ a).toList :=
  ⟨x.toList, [], by simp [toList_append]⟩

/-- The last component of a rendered path occurs in the rendered string. -/
theorem label_infix_pathToString (xs : List String) (g : String) :
    g.toList <:+: (pathToString (xs ++ [g])).toList := by
  induction xs with
  | nil => exact List.infix_refl _
  | cons c rest ih =>
    cases rest with
    | nil => exact ⟨(c ++ "/").toList, [], by simp [pathToString, toList_append]⟩
    | cons d rest2 =>
      exact infix_of_infix_append_left (c ++ "/") _ _ ih

/-- Sequencing after an empty successful stage is the identity. -/
theorem seqPhase_nil_left (b : PhaseResult) : seqPhase ([], Except.ok []) b = b := by
  rcases b with ⟨ev, r⟩
  cases r <;> simp [seqPhase]

/-- Inversion of a successful sequencing. -/
theorem seqPhase_ok (a b : PhaseResult) (ev : List Event) (m : List ManifestObject)
    (h : seqPhase a b = (ev, Except.ok m)) :
    ∃ ev1 m1 ev2 m2, a = (ev1, Except.ok m1) ∧ b = (ev2, Except.ok m2) ∧ m = m1 ++ m2 := by
  rcases a with ⟨ev1, r1⟩
  rcases b with ⟨ev2, r2⟩
  cases r1 with
  | error e => simp [seqPhase] at h
  | ok m1 =>
    cases r2 with
    | error e => simp [seqPhase] at h
    | ok m2 =>
      refine ⟨ev1, m1, ev2, m2, rfl, rfl, ?_⟩
      simp [seqPhase] at h
      exact h.2.symm

/-- A trace that consists of file reads only. -/
def onlyReads (l : List Event) : Prop := ∀ e ∈ l, ∃ p, e = Event.readFile p

theorem onlyReads_nil : onlyReads [] := by simp [onlyReads]

theorem onlyReads_append (a b : List Event) (ha : onlyReads a) (hb : onlyReads b) :
    onlyReads (a ++ b) := by
  intro e he
  rcases List.mem_append.mp he with h | h
  · exact ha e h
  · exact hb e h

/-- load_file only reads. -/
theorem load_file_onlyReads (fs : FS) (p : HostPath) : onlyReads (load_file fs p).1 := by
  cases h : fs.readFile p <;> simp [load_file, h, onlyReads]

/-- Sequencing preserves read-only traces. -/
theorem seqPhase_onlyReads (a b : PhaseResult) (ha : onlyReads a.1) (hb : onlyReads b.1) :
    onlyReads (seqPhase a b).1 := by
  rcases a with ⟨ev1, r1⟩
  rcases b with ⟨ev2, r2⟩
  cases r1 with
  | error e => simpa [seqPhase] using ha
  | ok m1 =>
    cases r2 with
    | error e => exact onlyReads_append ev1 ev2 ha hb
    | ok m2 => exact onlyReads_append ev1 ev2 ha hb

/-- The architecture-banner stage only reads files. -/
theorem archBannerPart_onlyReads (st : Settings) (banners : Banners) (base : HostPath)
    (fs : FS) : onlyReads (archBannerPart st banners base fs).1 := by
  unfold archBannerPart
  cases banners.path with
  | none => exact onlyReads_nil
  | some dir =>
    dsimp only
    cases st.target_arch with
    | none => exact onlyReads_nil
    | some ta =>
      dsimp only
      cases get_base_arch ta with
      | none => exact onlyReads_nil
      | some ba =>
        dsimp only
        cases fileNameOfPath (pushPath (pushPath base dir) (ba ++ ".txt")) with
        | none => exact onlyReads_nil
        | some nm =>
          dsimp only
          rcases h : load_file fs (pushPath (pushPath base dir) (ba ++ ".txt")) with ⟨ev, r⟩
          have ho := load_file_onlyReads fs (pushPath (pushPath base dir) (ba ++ ".txt"))
          rw [h] at ho
          cases r <;> exact ho

/-- The welcome-banner stage only reads files. -/
theorem welcomePart_onlyReads (banners : Banners) (base : HostPath) (fs : FS) :
    onlyReads (welcomePart banners base fs).1 := by
  unfold welcomePart
  cases banners.welcome with
  | none => exact onlyReads_nil
  | some welcome =>
    dsimp only
    cases pathFileName welcome with
    | none => exact onlyReads_nil
    | some nm =>
      dsimp only
      rcases h : load_file fs (pushPath base welcome) with ⟨ev, r⟩
      have ho := load_file_onlyReads fs (pushPath base welcome)
      rw [h] at ho
      cases r <;> exact ho

/-- The banner stage only reads files. -/
theorem bannersPhase_onlyReads (st : Settings) (base : HostPath) (fs : FS) :
    onlyReads (bannersPhase st base fs).1 := by
  unfold bannersPhase
  split
  · exact onlyReads_nil
  · exact seqPhase_onlyReads _ _ (archBannerPart_onlyReads st _ base fs)
      (welcomePart_onlyReads _ base fs)

/-- One service inclusion only reads files. -/
theorem serviceStep_onlyReads (st : Settings) (base : HostPath) (fs : FS)
    (catalog : List (String × Service)) (nm : String) :
    onlyReads (serviceStep st base fs catalog nm).1 := by
  unfold serviceStep
  cases List.lookup nm catalog with
  | none => exact onlyReads_nil
  | some service =>
    dsimp only
    rcases h : load_file fs
        (resolveServicePath base service.path st.target_arch st.quality fs nm) with ⟨ev, r⟩
    have ho := load_file_onlyReads fs
      (resolveServicePath base service.path st.target_arch st.quality fs nm)
    rw [h] at ho
    cases r <;> exact ho

/-- runList preserves read-only traces. -/
theorem runList_onlyReads (f : String → PhaseResult) (hstep : ∀ x, onlyReads (f x).1)
    (l : List String) : onlyReads (runList f l).1 := by
  induction l with
  | nil => exact onlyReads_nil
  | cons x xs ih => exact seqPhase_onlyReads _ _ (hstep x) ih

/-- The service stage only reads files. -/
theorem servicesPhase_onlyReads (st : Settings) (base : HostPath) (fs : FS) :
    onlyReads (servicesPhase st base fs).1 := by
  unfold servicesPhase
  split
  · split
    · exact onlyReads_nil
    · split
      · exact onlyReads_nil
      · exact runList_onlyReads _ (fun x => serviceStep_onlyReads st base fs _ x) _
  · exact onlyReads_nil

/-- A read-only trace contains no fetch event. -/
theorem no_fetch_of_onlyReads (l : List Event) (h : onlyReads l) (u : String) :
    Event.fetch u ∉ l := by
  intro hmem
  obtain ⟨p, hp⟩ := h _ hmem
  simp at hp

/-- Skipping a step that contributes no trace and no objects leaves a
runList fold unchanged. -/
theorem runList_skip (f : String → PhaseResult) (x : String)
    (hx : f x = ([], Except.ok [])) (pre suf : List String) :
    runList f (pre ++ x :: suf) = runList f (pre ++ suf) := by
  induction pre with
  | nil =>
    show seqPhase (f x) (runList f suf) = runList f suf
    rw [hx, seqPhase_nil_left]
  | cons a pre ih =>
    show seqPhase (f a) (runList f (pre ++ x :: suf)) = seqPhase (f a) (runList f (pre ++ suf))
    rw [ih]

/-- Objects produced by the architecture-banner stage are boot messages. -/
theorem archBannerPart_kinds (st : Settings) (banners : Banners) (base : HostPath)
    (fs : FS) (ev : List Event) (objs : List ManifestObject)
    (h : archBannerPart st banners base fs = (ev, Except.ok objs)) :
    ∀ o ∈ objs, o.kind = ManifestObjectType.BootMsg := by
  revert h
  unfold archBannerPart
  cases banners.path with
  | none =>
    intro h o ho
    injection h with h1 h2
    injection h2 with h2
    rw [← h2] at ho
    simp at ho
  | some dir =>
    dsimp only
    cases st.target_arch with
    | none =>
      intro h o ho
      injection h with h1 h2
      injection h2 with h2
      rw [← h2] at ho
      simp at ho
    | some ta =>
      dsimp only
      cases get_base_arch ta with
      | none =>
        intro h o ho
        injection h with h1 h2
        injection h2 with h2
        rw [← h2] at ho
        simp at ho
      | some ba =>
        dsimp only
        cases fileNameOfPath (pushPath (pushPath base dir) (ba ++ ".txt")) with
        | none =>
          intro h
          injection h with h1 h2
          injection h2
        | some nm =>
          dsimp only
          rcases load_file fs (pushPath (pushPath base dir) (ba ++ ".txt")) with ⟨evl, r⟩
          cases r with
          | error e =>
            intro h
            injection h with h1 h2
            injection h2
          | ok bytes =>
            intro h o ho
            injection h with h1 h2
            injection h2 with h2
            rw [← h2] at ho
            simp at ho
            simp [ho]

/-- Objects produced by the welcome-banner stage are boot messages. -/
theorem welcomePart_kinds (banners : Banners) (base : HostPath) (fs : FS)
    (ev : List Event) (objs : List ManifestObject)
    (h : welcomePart banners base fs = (ev, Except.ok objs)) :
    ∀ o ∈ objs, o.kind = ManifestObjectType.BootMsg := by
  revert h
  unfold welcomePart
  cases banners.welcome with
  | none =>
    intro h o ho
    injection h with h1 h2
    injection h2 with h2
    rw [← h2] at ho
    simp at ho
  | some welcome =>
    dsimp only
    cases pathFileName welcome with
    | none =>
      intro h
      injection h with h1 h2
      injection h2
    | some nm =>
      dsimp only
      rcases load_file fs (pushPath base welcome) with ⟨evl, r⟩
      cases r with
      | error e =>
        intro h
        injection h with h1 h2
        injection h2
      | ok bytes =>
        intro h o ho
        injection h with h1 h2
        injection h2 with h2
        rw [← h2] at ho
        simp at ho
        simp [ho]

/-- Objects produced by the banner stage are boot messages. -/
theorem bannersPhase_kinds (st : Settings) (base : HostPath) (fs : FS)
    (ev : List Event) (objs : List ManifestObject)
    (h : bannersPhase st base fs = (ev, Except.ok objs)) :
    ∀ o ∈ objs, o.kind = ManifestObjectType.BootMsg := by
  revert h
  unfold bannersPhase
  cases st.config.banners with
  | none =>
    intro h o ho
    injection h with h1 h2
    injection h2 with h2
    rw [← h2] at ho
    simp at ho
  | some banners =>
    dsimp only
    intro h
    obtain ⟨ev1, m1, ev2, m2, h1, h2, rfl⟩ := seqPhase_ok _ _ _ _ h
    intro o ho
    rcases List.mem_append.mp ho with hm | hm
    · exact archBannerPart_kinds st banners base fs ev1 m1 h1 o hm
    · exact welcomePart_kinds banners base fs ev2 m2 h2 o hm

/-- Objects produced by one service inclusion are system services. -/
theorem serviceStep_kinds (st : Settings) (base : HostPath) (fs : FS)
    (catalog : List (String × Service)) (nm : String)
    (ev : List Event) (objs : List ManifestObject)
    (h : serviceStep st base fs catalog nm = (ev, Except.ok objs)) :
    ∀ o ∈ objs, o.kind = ManifestObjectType.SystemService := by
  revert h
  unfold serviceStep
  cases List.lookup nm catalog with
  | none =>
    intro h o ho
    injection h with h1 h2
    injection h2 with h2
    rw [← h2] at ho
    simp at ho
  | some service =>
    dsimp only
    rcases load_file fs
        (resolveServicePath base service.path st.target_arch st.quality fs nm) with ⟨evl, r⟩
    cases r with
    | error e =>
      intro h
      injection h with h1 h2
      injection h2
    | ok bytes =>
      intro h o ho
      injection h with h1 h2
      injection h2 with h2
      rw [← h2] at ho
      simp at ho
      simp [ho]

/-- Objects produced by a runList fold all have the step's kind. -/
theorem runList_kinds (f : String → PhaseResult) (k : ManifestObjectType)
    (hstep : ∀ x ev objs, f x = (ev, Except.ok objs) → ∀ o ∈ objs, o.kind = k) :
    ∀ (l : List String) (ev : List Event) (objs : List ManifestObject),
      runList f l = (ev, Except.ok objs) → ∀ o ∈ objs, o.kind = k := by
  intro l
  induction l with
  | nil =>
    intro ev objs h o ho
    simp only [runList] at h
    injection h with h1 h2
    injection h2 with h2
    rw [← h2] at ho
    simp at ho
  | cons x xs ih =>
    intro ev objs h o ho
    simp only [runList] at h
    obtain ⟨ev1, m1, ev2, m2, hx, hxs, rfl⟩ := seqPhase_ok _ _ _ _ h
    rcases List.mem_append.mp ho with hm | hm
    · exact hstep x ev1 m1 hx o hm
    · exact ih ev2 m2 hxs o hm

/-- Objects produced by the service stage are system services. -/
theorem servicesPhase_kinds (st : Settings) (base : HostPath) (fs : FS)
    (ev : List Event) (objs : List ManifestObject)
    (h : servicesPhase st base fs = (ev, Except.ok objs)) :
    ∀ o ∈ objs, o.kind = ManifestObjectType.SystemService := by
  revert h
  unfold servicesPhase
  cases st.config.services with
  | none =>
    cases st.no_services <;>
      (intro h o ho
       injection h with h1 h2
       injection h2 with h2
       rw [← h2] at ho
       simp at ho)
  | some services =>
    cases st.no_services with
    | true =>
      intro h o ho
      injection h with h1 h2
      injection h2 with h2
      rw [← h2] at ho
      simp at ho
    | false =>
      dsimp only
      cases st.config.service with
      | none =>
        intro h o ho
        injection h with h1 h2
        injection h2 with h2
        rw [← h2] at ho
        simp at ho
      | some available_services =>
        dsimp only
        cases services.includeNames with
        | none =>
          intro h o ho
          injection h with h1 h2
          injection h2 with h2
          rw [← h2] at ho
          simp at ho
        | some names =>
          dsimp only
          intro h
          exact runList_kinds _ _
            (fun x e os hx => serviceStep_kinds st base fs available_services x e os hx)
            names ev objs h

/-- Objects produced by one guest step are guest OS images. -/
theorem guestStep_kinds (st : Settings) (base : HostPath) (net : Net)
    (catalog : List (String × Guest)) (ta : String) (acc : FS) (guest : String)
    (ev : List Event) (objs : List ManifestObject) (fs2 : FS)
    (h : guestStep st base net catalog ta acc guest = (ev, Except.ok (objs, fs2))) :
    ∀ o ∈ objs, o.kind = ManifestObjectType.GuestOS := by
  revert h
  unfold guestStep
  cases List.lookup guest catalog with
  | none =>
    intro h
    injection h with h1 h2
    injection h2
  | some g =>
    dsimp only
    by_cases hex : (acc.withDir (pushPath base g.path)).pathExists
        (pushPath (pushPath base g.path) guest) = true
    · rw [if_pos hex]
      rcases load_file (acc.withDir (pushPath base g.path))
          (pushPath (pushPath base g.path) guest) with ⟨evl, r⟩
      cases r with
      | error e =>
        intro h
        injection h with h1 h2
        injection h2
      | ok bytes =>
        intro h o ho
        injection h with h1 h2
        injection h2 with h2
        injection h2 with h2 h3
        rw [← h2] at ho
        simp at ho
        simp [ho]
    · rw [if_neg hex]
      cases g.url with
      | none =>
        cases st.no_downloads <;>
          (intro h
           injection h with h1 h2
           injection h2)
      | some url =>
        cases st.no_downloads with
        | true =>
          intro h
          injection h with h1 h2
          injection h2
        | false =>
          dsimp only
          cases net.get url with
          | none =>
            intro h
            injection h with h1 h2
            injection h2
          | some body =>
            dsimp only
            cases body with
            | none =>
              intro h
              injection h with h1 h2
              injection h2
            | some bytes =>
              dsimp only
              rcases load_file
                  ((acc.withDir (pushPath base g.path)).withFile
                    (pushPath (pushPath base g.path) guest) bytes)
                  (pushPath (pushPath base g.path) guest) with ⟨evl, r⟩
              cases r with
              | error e =>
                intro h
                injection h with h1 h2
                injection h2
              | ok b2 =>
                intro h o ho
                injection h with h1 h2
                injection h2 with h2
                injection h2 with h2 h3
                rw [← h2] at ho
                simp at ho
                simp [ho]

/-- Objects produced by the guest fold are guest OS images. -/
theorem runGuests_kinds (st : Settings) (base : HostPath) (net : Net)
    (catalog : List (String × Guest)) (ta : String) :
    ∀ (l : List String) (acc : FS) (ev : List Event) (objs : List ManifestObject),
      runGuests st base net catalog ta acc l = (ev, Except.ok objs) →
      ∀ o ∈ objs, o.kind = ManifestObjectType.GuestOS := by
  intro l
  induction l with
  | nil =>
    intro acc ev objs h o ho
    simp only [runGuests] at h
    injection h with h1 h2
    injection h2 with h2
    rw [← h2] at ho
    simp at ho
  | cons x xs ih =>
    intro acc ev objs h o ho
    simp only [runGuests] at h
    rcases hstep : guestStep st base net catalog ta acc x with ⟨ev1, r1⟩
    rw [hstep] at h
    cases r1 with
    | error e =>
      injection h with h1 h2
      injection h2
    | ok pr =>
      rcases pr with ⟨objs1, fs2⟩
      dsimp only at h
      rcases hrest : runGuests st base net catalog ta fs2 xs with ⟨ev2, r2⟩
      rw [hrest] at h
      cases r2 with
      | error e =>
        injection h with h1 h2
        injection h2
      | ok rest =>
        injection h with h1 h2
        injection h2 with h2
        rw [← h2] at ho
        rcases List.mem_append.mp ho with hm | hm
        · exact guestStep_kinds st base net catalog ta acc x ev1 objs1 fs2 hstep o hm
        · exact ih fs2 ev2 rest hrest o hm

/-- Objects produced by the guest stage are guest OS images. -/
theorem guestsPhase_kinds (st : Settings) (base : HostPath) (fs : FS) (net : Net)
    (ev : List Event) (objs : List ManifestObject)
    (h : guestsPhase st base fs net = (ev, Except.ok objs)) :
    ∀ o ∈ objs, o.kind = ManifestObjectType.GuestOS := by
  revert h
  unfold guestsPhase
  cases st.target_arch with
  | none =>
    cases st.no_guests <;>
      (intro h o ho
       injection h with h1 h2
       injection h2 with h2
       rw [← h2] at ho
       simp at ho)
  | some ta =>
    cases st.no_guests with
    | true =>
      intro h o ho
      injection h with h1 h2
      injection h2 with h2
      rw [← h2] at ho
      simp at ho
    | false =>
      dsimp only
      cases st.config.target with
      | none =>
        intro h o ho
        injection h with h1 h2
        injection h2 with h2
        rw [← h2] at ho
        simp at ho
      | some possible_targets =>
        dsimp only
        cases List.lookup ta possible_targets with
        | none =>
          intro h o ho
          injection h with h1 h2
          injection h2 with h2
          rw [← h2] at ho
          simp at ho
        | some target_entry =>
          dsimp only
          cases target_entry.guests with
          | none =>
            intro h o ho
            injection h with h1 h2
            injection h2 with h2
            rw [← h2] at ho
            simp at ho
          | some targets_guests =>
            dsimp only
            intro h
            exact runGuests_kinds st base net _ ta targets_guests fs ev objs h

/-- Numeric rank of the fixed category order: banners, services, guests. -/
def kindRank : ManifestObjectType → Nat
  | ManifestObjectType.BootMsg => 0
  | ManifestObjectType.SystemService => 1
  | ManifestObjectType.GuestOS => 2

/-- A three-segment list with homogeneous kinds is rank-sorted. -/
theorem pairwise_rank_of_segments (b s g : List ManifestObject)
    (hb : ∀ o ∈ b, o.kind = ManifestObjectType.BootMsg)
    (hs : ∀ o ∈ s, o.kind = ManifestObjectType.SystemService)
    (hg : ∀ o ∈ g, o.kind = ManifestObjectType.GuestOS) :
    List.Pairwise (fun o1 o2 => kindRank o1.kind ≤ kindRank o2.kind) (b ++ (s ++ g)) := by
  rw [List.pairwise_append]
  refine ⟨?_, ?_, ?_⟩
  · exact List.pairwise_of_forall_mem_list (fun o1 h1 o2 h2 => by rw [hb o1 h1, hb o2 h2])
  · rw [List.pairwise_append]
    refine ⟨?_, ?_, ?_⟩
    · exact List.pairwise_of_forall_mem_list (fun o1 h1 o2 h2 => by rw [hs o1 h1, hs o2 h2])
    · exact List.pairwise_of_forall_mem_list (fun o1 h1 o2 h2 => by rw [hg o1 h1, hg o2 h2])
    · intro o1 h1 o2 h2
      rw [hs o1 h1, hg o2 h2]
      exact Nat.le_succ 1
  · intro o1 h1 o2 h2
    rw [hb o1 h1]
    exact Nat.zero_le _

/-- The architecture-banner stage depends on the settings only through the
target architecture. -/
theorem archBannerPart_congr (st st' : Settings) (h : st.target_arch = st'.target_arch)
    (banners : Banners) (base : HostPath) (fs : FS) :
    archBannerPart st banners base fs = archBannerPart st' banners base fs := by
  unfold archBannerPart
  rw [h]

/-- The welcome-banner stage depends on the banners table only through the
welcome field. -/
theorem welcomePart_congr (b b' : Banners) (h : b.welcome = b'.welcome)
    (base : HostPath) (fs : FS) : welcomePart b base fs = welcomePart b' base fs := by
  unfold welcomePart
  rw [h]

/-- The banner stage depends on the settings only through the banners table
and the target architecture. -/
theorem bannersPhase_congr (st st' : Settings)
    (h1 : st.config.banners = st'.config.banners)
    (h2 : st.target_arch = st'.target_arch)
    (base : HostPath) (fs : FS) :
    bannersPhase st base fs = bannersPhase st' base fs := by
  unfold bannersPhase
  rw [h1]
  cases st'.config.banners with
  | none => rfl
  | some b =>
    dsimp only
    rw [archBannerPart_congr st st' h2 b base fs]

/-- One service step depends on the settings only through the target
architecture and the quality. -/
theorem serviceStep_congr (st st' : Settings)
    (h4 : st.target_arch = st'.target_arch) (h5 : st.quality = st'.quality)
    (base : HostPath) (fs : FS) (catalog : List (String × Service)) (nm : String) :
    serviceStep st base fs catalog nm = serviceStep st' base fs catalog nm := by
  unfold serviceStep
  rw [h4, h5]

/-- The service stage depends on the settings only through the services
table, the skip flag, the service catalog, the target architecture and the
quality. -/
theorem servicesPhase_congr (st st' : Settings)
    (h1 : st.config.services = st'.config.services)
    (h2 : st.no_services = st'.no_services)
    (h3 : st.config.service = st'.config.service)
    (h4 : st.target_arch = st'.target_arch) (h5 : st.quality = st'.quality)
    (base : HostPath) (fs : FS) :
    servicesPhase st base fs = servicesPhase st' base fs := by
  unfold servicesPhase
  rw [h1, h2, h3]
  have hf : serviceStep st base fs = serviceStep st' base fs :=
    funext fun catalog => funext fun nm => serviceStep_congr st st' h4 h5 base fs catalog nm
  rw [hf]

/-- With the service skip flag set, the service stage contributes
nothing. -/
theorem servicesPhase_skip_all (st : Settings) (base : HostPath) (fs : FS)
    (h : st.no_services = true) : servicesPhase st base fs = ([], Except.ok []) := by
  unfold servicesPhase
  rw [h]
  cases st.config.services <;> rfl

/-- One guest step depends on the settings only through the download skip
flag. -/
theorem guestStep_congr (st st' : Settings) (h : st.no_downloads = st'.no_downloads)
    (base : HostPath) (net : Net) (catalog : List (String × Guest)) (ta : String)
    (acc : FS) (guest : String) :
    guestStep st base net catalog ta acc guest = guestStep st' base net catalog ta acc guest := by
  unfold guestStep
  rw [h]

/-- The guest fold depends on the settings only through the download skip
flag. -/
theorem runGuests_congr (st st' : Settings) (h : st.no_downloads = st'.no_downloads)
    (base : HostPath) (net : Net) :
    ∀ (catalog : List (String × Guest)) (ta : String) (l : List String) (acc : FS),
      runGuests st base net catalog ta acc l = runGuests st' base net catalog ta acc l := by
  intro catalog ta l
  induction l with
  | nil => intro acc; rfl
  | cons x xs ih =>
    intro acc
    simp only [runGuests, guestStep_congr st st' h base net catalog ta acc x, ih]

/-- The guest stage depends on the settings only through the target
architecture, the skip flags and the guest and target tables. -/
theorem guestsPhase_congr (st st' : Settings)
    (h1 : st.target_arch = st'.target_arch) (h2 : st.no_guests = st'.no_guests)
    (h3 : st.config.target = st'.config.target) (h4 : st.config.guest = st'.config.guest)
    (h5 : st.no_downloads = st'.no_downloads)
    (base : HostPath) (fs : FS) (net : Net) :
    guestsPhase st base fs net = guestsPhase st' base fs net := by
  unfold guestsPhase
  rw [h1, h2, h3, h4]
  have hr : runGuests st base net = runGuests st' base net := by
    funext catalog ta acc l
    exact runGuests_congr st st' h5 base net catalog ta l acc
  rw [hr]

/-- A strictly longer extension is never a path prefix of the original. -/
theorem isPrefixOf_append_singleton_self (l : List String) (a : String) :
    (l ++ [a]).isPrefixOf l = false := by
  cases h : (l ++ [a]).isPrefixOf l with
  | false => rfl
  | true =>
    exfalso
    have hp : (l ++ [a]) <+: l := isPrefixOf_true_iff (l ++ [a]) l |>.mp h
    have := hp.length_le
    simp at this

/-- C3 (amended): for every target-architecture string in which exactly one
of the known family tokens (riscv, aarch64, arm, powerpc64, x86_64) occurs
- that token possibly several times, but no other token anywhere - base
architecture extraction returns exactly that token, regardless of the
surrounding text. -/
theorem claim_C3 (s : String) (t : List Char) (ht : t ∈ archTokens)
    (hsub : t <:+: s.toList)
    (huniq : ∀ x ∈ archTokens, x <:+: s.toList → x = t) :
    get_base_arch s = some (String.mk t) := by
  unfold get_base_arch
  rw [get_base_arch_chars_eq_of_unique s.toList t ht hsub huniq]
  rfl

/-- Witness for C3 at the spec's own example string. -/
theorem claim_C3_witness :
    ("riscv".toList ∈ archTokens) ∧
    ("riscv".toList <:+: "riscv64gc-unknown-none-elf".toList) ∧
    (∀ x ∈ archTokens, x <:+: "riscv64gc-unknown-none-elf".toList → x = "riscv".toList) ∧
    get_base_arch "riscv64gc-unknown-none-elf" = some "riscv" :=
  ⟨by decide, by decide, by decide,
   claim_C3 "riscv64gc-unknown-none-elf" "riscv".toList (by decide) (by decide) (by decide)⟩

/-- C3 fails as frozen: "armriscv" contains the family token "riscv", yet
extraction returns "arm" - the leftmost-first match wins, not every
contained token. -/
theorem claim_C3_counterexample :
    ("riscv".toList ∈ archTokens) ∧ ("riscv".toList <:+: "armriscv".toList) ∧
    get_base_arch "armriscv" = some "arm" ∧ get_base_arch "armriscv" ≠ some "riscv" :=
  ⟨by decide, by decide, rfl, by decide⟩

/-- C4: for a target-architecture string containing none of the family
tokens, extraction returns none, and the whole pipeline behaves exactly as
if no banner directory were configured - no architecture banner object, no
error, processing continues. -/
theorem claim_C4 (st : Settings) (fs : FS) (net : Net) (s : String)
    (hta : st.target_arch = some s)
    (h : ∀ t ∈ archTokens, ¬ t <:+: s.toList) :
    get_base_arch s = none ∧
    mainManifest st fs net =
      mainManifest { st with config := { st.config with
        banners := st.config.banners.map (fun b => { b with path := none }) } } fs net := by
  have h0 : get_base_arch s = none := by
    unfold get_base_arch
    rw [get_base_arch_chars_eq_none s.toList h]
    rfl
  refine ⟨h0, ?_⟩
  rcases st with ⟨cd, onm, ta, q, vb, nd, ns, ng, cfg⟩
  rcases cfg with ⟨bn, svs, svc, gst, tgm⟩
  obtain rfl : ta = some s := hta
  cases bn with
  | none => rfl
  | some b =>
    rcases b with ⟨bp, bw⟩
    cases bp with
    | none => rfl
    | some dir =>
      unfold mainManifest
      dsimp only
      refine congrArg₂ seqPhase ?_ (congrArg₂ seqPhase ?_ ?_)
      · unfold bannersPhase
        dsimp only
        refine congrArg₂ seqPhase ?_ ?_
        · unfold archBannerPart
          dsimp only
          rw [h0]
        · exact welcomePart_congr _ _ rfl _ fs
      · exact servicesPhase_congr _ _ rfl rfl rfl rfl rfl _ fs
      · refine guestsPhase_congr _ _ ?_ ?_ ?_ ?_ ?_ _ fs net <;> rfl

/-- Concrete settings for the C4 witness: a banner directory configured
together with an unrecognized target architecture. -/
def stC4 : Settings :=
  { config_dir := [], output_filename := none, target_arch := some "mips64el-linux",
    quality := none, verbose := false, no_downloads := false, no_services := false,
    no_guests := false,
    config := { banners := some { path := some "banners", welcome := some "welcome.txt" },
                services := none, service := none, guest := none, target := none } }

/-- Witness for C4 at a concrete unrecognized architecture. -/
theorem claim_C4_witness :
    (∀ t ∈ archTokens, ¬ t <:+: "mips64el-linux".toList) ∧
    get_base_arch "mips64el-linux" = none ∧
    mainManifest stC4 fsEmpty netNone =
      mainManifest { stC4 with config := { stC4.config with
        banners := stC4.config.banners.map (fun b => { b with path := none }) } }
        fsEmpty netNone := by
  refine ⟨by decide, ?_, ?_⟩
  · exact (claim_C4 stC4 fsEmpty netNone "mips64el-linux" rfl (by decide)).1
  · exact (claim_C4 stC4 fsEmpty netNone "mips64el-linux" rfl (by decide)).2

/-- C9: when the configured welcome banner path has no final file-name
component, the run panics (the unwrap of src/main.rs line 322) instead of
ending in the fatal_error diagnostic path; stated here for runs whose
architecture-banner step is inactive so the welcome step is reached. -/
theorem claim_C9 (st : Settings) (fs : FS) (net : Net) (b : Banners) (w : String)
    (hb : st.config.banners = some b) (hw : b.welcome = some w)
    (hfn : pathFileName w = none)
    (hskip : b.path = none ∨ st.target_arch = none) :
    mainManifest st fs net = ([], Except.error BuildError.panicked) := by
  rcases st with ⟨cd, onm, ta, q, vb, nd, ns, ng, cfg⟩
  rcases cfg with ⟨bn, svs, svc, gst, tgm⟩
  obtain rfl : bn = some b := hb
  rcases b with ⟨bp, bw⟩
  obtain rfl : bw = some w := hw
  rcases hskip with hskip | hskip
  · obtain rfl : bp = none := hskip
    unfold mainManifest bannersPhase archBannerPart welcomePart
    dsimp only
    rw [hfn]
    rfl
  · obtain rfl : ta = none := hskip
    cases bp with
    | none =>
      unfold mainManifest bannersPhase archBannerPart welcomePart
      dsimp only
      rw [hfn]
      rfl
    | some dir =>
      unfold mainManifest bannersPhase archBannerPart welcomePart
      dsimp only
      rw [hfn]
      rfl

/-- Concrete settings for the C9 witness: welcome banner configured as "..",
which has no final file-name component. -/
def stC9 : Settings :=
  { config_dir := [], output_filename := none, target_arch := none, quality := none,
    verbose := false, no_downloads := false, no_services := false, no_guests := false,
    config := { banners := some { path := none, welcome := some ".." },
                services := none, service := none, guest := none, target := none } }

/-- Witness for C9 at the concrete welcome path "..". -/
theorem claim_C9_witness :
    pathFileName ".." = none ∧
    mainManifest stC9 fsEmpty netNone = ([], Except.error BuildError.panicked) :=
  ⟨rfl, claim_C9 stC9 fsEmpty netNone { path := none, welcome := some ".." } ".."
    rfl rfl rfl (Or.inl rfl)⟩

/-- C10: an include-list name with no service.name catalog entry is
silently skipped - its step contributes no object, no event and no error,
and the whole pipeline behaves exactly as if the name were not listed. -/
theorem claim_C10 (st : Settings) (fs : FS) (net : Net)
    (svcs : Services) (catalog : List (String × Service))
    (nm : String) (pre suf : List String)
    (hsv : st.config.services = some svcs)
    (hinc : svcs.includeNames = some (pre ++ nm :: suf))
    (hcat : st.config.service = some catalog)
    (hlk : List.lookup nm catalog = none) :
    serviceStep st st.config_dir fs catalog nm = ([], Except.ok []) ∧
    mainManifest st fs net =
      mainManifest { st with config := { st.config with
        services := some { includeNames := some (pre ++ suf) } } } fs net := by
  have hstep : serviceStep st st.config_dir fs catalog nm = ([], Except.ok []) := by
    unfold serviceStep
    rw [hlk]
  refine ⟨hstep, ?_⟩
  rcases st with ⟨cd, onm, ta, q, vb, nd, ns, ng, cfg⟩
  rcases cfg with ⟨bn, svs, svc, gst, tgm⟩
  obtain rfl : svs = some svcs := hsv
  rcases svcs with ⟨inc⟩
  obtain rfl : inc = some (pre ++ nm :: suf) := hinc
  obtain rfl : svc = some catalog := hcat
  dsimp only at hstep
  cases ns with
  | true =>
    unfold mainManifest
    dsimp only
    refine congrArg₂ seqPhase ?_ (congrArg₂ seqPhase ?_ ?_)
    · exact bannersPhase_congr _ _ rfl rfl _ fs
    · rw [servicesPhase_skip_all _ _ fs rfl, servicesPhase_skip_all _ _ fs rfl]
    · refine guestsPhase_congr _ _ ?_ ?_ ?_ ?_ ?_ _ fs net <;> rfl
  | false =>
    unfold mainManifest
    dsimp only
    refine congrArg₂ seqPhase ?_ (congrArg₂ seqPhase ?_ ?_)
    · exact bannersPhase_congr _ _ rfl rfl _ fs
    · unfold servicesPhase
      dsimp only
      rw [runList_skip _ nm hstep pre suf]
      exact congrArg (fun f => runList f (pre ++ suf))
        (funext fun x => serviceStep_congr _ _ rfl rfl _ fs catalog x)
    · refine guestsPhase_congr _ _ ?_ ?_ ?_ ?_ ?_ _ fs net <;> rfl

/-- Concrete service catalog for the C10 witness. -/
def catC10 : List (String × Service) :=
  [("svc_a", { path := "svca", description := "service A", properties := none })]

/-- Concrete settings for the C10 witness: the include list names "ghost",
which has no catalog entry. -/
def stC10 : Settings :=
  { config_dir := [], output_filename := none, target_arch := none,
    quality := some "debug", verbose := false, no_downloads := false,
    no_services := false, no_guests := false,
    config := { banners := none, services := some { includeNames := some ["ghost"] },
                service := some catC10, guest := none, target := none } }

/-- Witness for C10 at the concrete missing service name "ghost". -/
theorem claim_C10_witness :
    serviceStep stC10 [] fsEmpty catC10 "ghost" = ([], Except.ok []) ∧
    mainManifest stC10 fsEmpty netNone =
      mainManifest { stC10 with config := { stC10.config with
        services := some { includeNames := some ([] ++ []) } } } fsEmpty netNone := by
  have h := claim_C10 stC10 fsEmpty netNone { includeNames := some ["ghost"] } catC10
    "ghost" [] [] rfl rfl rfl rfl
  exact ⟨h.1, h.2⟩

/-- C1 (amended): the payload path of an included system service is
base, then the service source directory, then "target", then the
target-architecture segment exactly when that path exists on disk, and
then - exactly when a quality setting is present, not always - the quality
segment followed by the service name. -/
theorem claim_C1 (base : HostPath) (svc_path : String)
    (target_arch quality : Option String) (fs : FS) (service_name : String) :
    resolveServicePath base svc_path target_arch quality fs service_name =
      servicePathSpec base svc_path target_arch quality fs service_name := by
  have htarget : splitPath "target" = ["target"] := rfl
  unfold resolveServicePath servicePathSpec pushPath
  dsimp only
  rw [htarget]
  cases target_arch with
  | none => cases quality <;> simp [List.append_assoc]
  | some ta =>
    cases quality with
    | none =>
      dsimp only
      split <;> simp [List.append_assoc]
    | some q =>
      dsimp only
      split <;> simp [List.append_assoc]

/-- C1 fails as frozen: with no quality setting the service name is not
appended - the resolved path stops at target with no final service-name
component. -/
theorem claim_C1_counterexample :
    resolveServicePath [] "svc" (some "riscv64gc-unknown-none-elf") none fsEmpty "mysvc" =
      ["svc", "target"] ∧
    "mysvc" ∉
      resolveServicePath [] "svc" (some "riscv64gc-unknown-none-elf") none fsEmpty "mysvc" := by
  constructor
  · rfl
  · decide

/-- Concrete guest for the C2 evaluation: absent on disk, URL configured. -/
def gC2 : Guest := { path := "guests", url := some "http://x/guest1",
                     description := "linux guest" }

/-- Concrete settings for the C2 evaluation. -/
def stC2 : Settings :=
  { config_dir := [], output_filename := none, target_arch := some "riscv64gc",
    quality := none, verbose := false, no_downloads := false, no_services := false,
    no_guests := false,
    config := { banners := none, services := none, service := none,
                guest := some [("guest1", gC2)],
                target := some [("riscv64gc", { guests := some ["guest1"] })] } }

/-- Concrete network for the C2 evaluation: every request succeeds but
reading the response body fails. -/
def netC2 : Net := { get := fun _ => some none }

/-- C2 (code bug): on a fetch whose response body cannot be read the run
terminates by panic (the unwrap of src/main.rs line 449), not through the
single-diagnostic fatal_error path the claim describes. -/
theorem claim_C2 :
    mainManifest stC2 fsEmpty netC2 =
      ([Event.createDirAll ["guests"], Event.fetch "http://x/guest1",
        Event.createFile ["guests", "guest1"]],
       Except.error BuildError.panicked) ∧
    (∀ msg, BuildError.panicked ≠ BuildError.fatal msg) :=
  ⟨rfl, fun _ h => BuildError.noConfusion h⟩

/-- A string is an infix of any string extension on the right. -/
theorem infix_of_infix_append_right (t y : String) (g : List Char) (h : g <:+: t.toList) :
    g <:+: (t ++ y).toList := by
  rcases h with ⟨u, v, huv⟩
  refine ⟨u, v ++ y.toList, ?_⟩
  rw [toList_append, ← huv]
  simp [List.append_assoc]

/-- One guest step on an already-present guest: the trace is exactly the
unconditional create_dir_all followed by the file read, and the object
carries the file's bytes. -/
theorem guestStep_existing (st : Settings) (base : HostPath) (net : Net)
    (catalog : List (String × Guest)) (ta : String) (acc : FS)
    (guest : String) (g : Guest) (b : Bytes)
    (hg : List.lookup guest catalog = some g)
    (hex : (acc.withDir (pushPath base g.path)).pathExists
      (pushPath (pushPath base g.path) guest) = true)
    (hrd : acc.readFile (pushPath (pushPath base g.path) guest) = some b) :
    guestStep st base net catalog ta acc guest =
      ([Event.createDirAll (pushPath base g.path),
        Event.readFile (pushPath (pushPath base g.path) guest)],
       Except.ok ([{ kind := ManifestObjectType.GuestOS, name := guest,
                     description := g.description, data := ManifestObjectData.Bytes b,
                     properties := none }], acc.withDir (pushPath base g.path))) := by
  unfold guestStep
  rw [hg]
  dsimp only
  rw [if_pos hex]
  simp [load_file, FS.withDir, hrd]

/-- One guest step on an absent guest with no usable URL: the trace is the
unconditional create_dir_all only, and the step fails with the missing
guest message. -/
theorem guestStep_missing (st : Settings) (base : HostPath) (net : Net)
    (catalog : List (String × Guest)) (ta : String) (acc : FS)
    (guest : String) (g : Guest)
    (hg : List.lookup guest catalog = some g)
    (hlabel : splitPath guest = [guest])
    (habs : (acc.withDir (pushPath base g.path)).pathExists
      (pushPath base g.path ++ [guest]) = false)
    (hpolicy : g.url = none ∨ st.no_downloads = true) :
    guestStep st base net catalog ta acc guest =
      ([Event.createDirAll (pushPath base g.path)],
       Except.error (BuildError.fatal
         (guestMissingMsg (pushPath (pushPath base g.path) guest)))) := by
  have hpp : pushPath (pushPath base g.path) guest = pushPath base g.path ++ [guest] := by
    show pushPath base g.path ++ splitPath guest = _
    rw [hlabel]
  unfold guestStep
  rw [hg]
  dsimp only
  rw [hpp, if_neg (by rw [habs]; simp)]
  rcases hpolicy with hurl | hnd
  · rw [hurl]
  · rw [hnd]
    cases g.url <;> rfl

/-- Running the guest list reaches an undefined guest label after a block
of well-defined, already-present guests, and fails with the undefined
guest message. -/
theorem runGuests_reach_undefined (st : Settings) (base : HostPath) (net : Net)
    (catalog : List (String × Guest)) (ta : String) (fs : FS)
    (guest : String) (suf : List String)
    (hg : List.lookup guest catalog = none) :
    ∀ (pre : List String) (acc : FS),
      (∀ p, fs.pathExists p = true → acc.pathExists p = true) →
      (∀ p, acc.readFile p = fs.readFile p) →
      (∀ x ∈ pre, ∃ gg b, List.lookup x catalog = some gg ∧
        fs.pathExists (pushPath (pushPath base gg.path) x) = true ∧
        fs.readFile (pushPath (pushPath base gg.path) x) = some b) →
      ∃ ev, runGuests st base net catalog ta acc (pre ++ guest :: suf) =
        (ev, Except.error (BuildError.fatal (guestUndefinedMsg guest ta))) := by
  intro pre
  induction pre with
  | nil =>
    intro acc h1 h2 hpre
    refine ⟨[], ?_⟩
    simp [runGuests, guestStep, hg]
  | cons x pre ih =>
    intro acc h1 h2 hpre
    obtain ⟨gg, b, hlkx, hex, hrd⟩ := hpre x (List.mem_cons_self x pre)
    have hex1 : (FS.withDir acc (pushPath base gg.path)).pathExists
        (pushPath (pushPath base gg.path) x) = true := by
      simp [FS.withDir, h1 _ hex]
    have hrd1 : FS.readFile acc (pushPath (pushPath base gg.path) x) = some b := by
      rw [h2, hrd]
    have hstep := guestStep_existing st base net catalog ta acc x gg b hlkx hex1 hrd1
    obtain ⟨ev, hev⟩ := ih (FS.withDir acc (pushPath base gg.path))
      (fun p hp => by simp [FS.withDir, h1 p hp])
      (fun p => by simp [FS.withDir, h2 p])
      (fun y hy => hpre y (List.mem_cons_of_mem x hy))
    refine ⟨[Event.createDirAll (pushPath base gg.path),
             Event.readFile (pushPath (pushPath base gg.path) x)] ++ ev, ?_⟩
    show runGuests st base net catalog ta acc (x :: (pre ++ guest :: suf)) = _
    simp only [runGuests]
    rw [hstep]
    dsimp only
    rw [hev]

/-- C5: an absent guest with no URL, or with downloads disabled, fails the
build with a fatal message that contains both the guest label and the full
resolved path, and no network fetch is ever attempted; stated for the first
guest of the target's list. -/
theorem claim_C5 (st : Settings) (fs : FS) (net : Net)
    (evb evs : List Event) (bObjs sObjs : List ManifestObject)
    (ta : String) (targets : List (String × Target)) (tgt : Target)
    (rest : List String) (guest : String) (g : Guest)
    (hb : bannersPhase st st.config_dir fs = (evb, Except.ok bObjs))
    (hs : servicesPhase st st.config_dir fs = (evs, Except.ok sObjs))
    (hta : st.target_arch = some ta) (hng : st.no_guests = false)
    (htg : st.config.target = some targets)
    (hlk : List.lookup ta targets = some tgt)
    (hgl : tgt.guests = some (guest :: rest))
    (hcat : List.lookup guest ((st.config.guest).getD []) = some g)
    (hlabel : splitPath guest = [guest])
    (habs : fs.pathExists (pushPath (pushPath st.config_dir g.path) guest) = false)
    (hpolicy : g.url = none ∨ st.no_downloads = true) :
    mainManifest st fs net =
      (evb ++ (evs ++ [Event.createDirAll (pushPath st.config_dir g.path)]),
       Except.error (BuildError.fatal
         (guestMissingMsg (pushPath (pushPath st.config_dir g.path) guest)))) ∧
    guest.toList <:+:
      (guestMissingMsg (pushPath (pushPath st.config_dir g.path) guest)).toList ∧
    (pathToString (pushPath (pushPath st.config_dir g.path) guest)).toList <:+:
      (guestMissingMsg (pushPath (pushPath st.config_dir g.path) guest)).toList ∧
    ∀ u, Event.fetch u ∉
      evb ++ (evs ++ [Event.createDirAll (pushPath st.config_dir g.path)]) := by
  have hpp : pushPath (pushPath st.config_dir g.path) guest
      = pushPath st.config_dir g.path ++ [guest] := by
    show pushPath st.config_dir g.path ++ splitPath guest = _
    rw [hlabel]
  have habs1 : (fs.withDir (pushPath st.config_dir g.path)).pathExists
      (pushPath st.config_dir g.path ++ [guest]) = false := by
    simp only [FS.withDir]
    rw [isPrefixOf_append_singleton_self]
    rw [← hpp, habs]
    rfl
  have hstep := guestStep_missing st st.config_dir net ((st.config.guest).getD []) ta fs
    guest g hcat hlabel habs1 hpolicy
  refine ⟨?_, ?_, ?_, ?_⟩
  · unfold mainManifest
    rw [hb, hs]
    have hgp : guestsPhase st st.config_dir fs net =
        ([Event.createDirAll (pushPath st.config_dir g.path)],
         Except.error (BuildError.fatal
           (guestMissingMsg (pushPath (pushPath st.config_dir g.path) guest)))) := by
      unfold guestsPhase
      rw [hta, hng, htg]
      dsimp only
      rw [hlk]
      dsimp only
      rw [hgl]
      dsimp only
      simp only [runGuests]
      rw [hstep]
    rw [hgp]
    simp [seqPhase]
  · unfold guestMissingMsg
    rw [hpp]
    exact infix_of_infix_append_left _ _ _ (label_infix_pathToString _ guest)
  · unfold guestMissingMsg
    exact infix_toList_right _ _
  · intro u hmem
    have hob := bannersPhase_onlyReads st st.config_dir fs
    rw [hb] at hob
    have hos := servicesPhase_onlyReads st st.config_dir fs
    rw [hs] at hos
    rcases List.mem_append.mp hmem with hm | hm
    · exact no_fetch_of_onlyReads evb hob u hm
    · rcases List.mem_append.mp hm with hm2 | hm2
      · exact no_fetch_of_onlyReads evs hos u hm2
      · simp at hm2

/-- Concrete guest and settings for the C5 witness: guest file absent, no
URL configured. -/
def gC5 : Guest := { path := "gdir5", url := none, description := "guest five" }

/-- Concrete settings for the C5 witness. -/
def stC5 : Settings :=
  { config_dir := [], output_filename := none, target_arch := some "armv7",
    quality := none, verbose := false, no_downloads := false, no_services := false,
    no_guests := false,
    config := { banners := none, services := none, service := none,
                guest := some [("g5", gC5)],
                target := some [("armv7", { guests := some ["g5"] })] } }

/-- Witness for C5 at a concrete absent guest with no URL. -/
theorem claim_C5_witness :
    mainManifest stC5 fsEmpty netNone =
      ([Event.createDirAll ["gdir5"]],
       Except.error (BuildError.fatal (guestMissingMsg ["gdir5", "g5"]))) ∧
    "g5".toList <:+: (guestMissingMsg ["gdir5", "g5"]).toList ∧
    (pathToString ["gdir5", "g5"]).toList <:+: (guestMissingMsg ["gdir5", "g5"]).toList ∧
    ∀ u, Event.fetch u ∉ [Event.createDirAll ["gdir5"]] :=
  claim_C5 stC5 fsEmpty netNone [] [] [] [] "armv7"
    [("armv7", { guests := some ["g5"] })] { guests := some ["g5"] } [] "g5" gC5
    rfl rfl rfl rfl rfl rfl rfl rfl rfl rfl (Or.inl rfl)

/-- Concrete guest and settings for the C6 counterexample and witness: the
guest file already exists on disk. -/
def gC6 : Guest := { path := "gdir", url := none, description := "guest six" }

/-- Concrete settings for C6. -/
def stC6 : Settings :=
  { config_dir := [], output_filename := none, target_arch := some "riscv64",
    quality := none, verbose := false, no_downloads := false, no_services := false,
    no_guests := false,
    config := { banners := none, services := none, service := none,
                guest := some [("g1", gC6)],
                target := some [("riscv64", { guests := some ["g1"] })] } }

/-- Concrete file system for C6: the guest file is present. -/
def fsC6 : FS :=
  { pathExists := fun p => p == ["gdir", "g1"]
    readFile := fun p => if p = ["gdir", "g1"] then some [7] else none }

/-- C6 fails as frozen: even when the guest file already exists, the run
performs the unconditional recursive directory creation of src/main.rs line
416 before the existence check - the concrete trace contains a createDirAll
event before the readFile event. -/
theorem claim_C6_counterexample :
    fsC6.pathExists ["gdir", "g1"] = true ∧
    mainManifest stC6 fsC6 netNone =
      ([Event.createDirAll ["gdir"], Event.readFile ["gdir", "g1"]],
       Except.ok [{ kind := ManifestObjectType.GuestOS, name := "g1",
                    description := "guest six", data := ManifestObjectData.Bytes [7],
                    properties := none }]) ∧
    Event.createDirAll ["gdir"] ∈ (mainManifest stC6 fsC6 netNone).1 :=
  ⟨rfl, rfl, by decide⟩

/-- C6 (amended): for a guest whose resolved path already exists, no
network fetch, no file creation and no file write occur before its bytes
are loaded; the step does, however, first invoke the unconditional,
idempotent recursive directory creation on the guest's directory - its
whole trace is exactly that createDirAll followed by the readFile. -/
theorem claim_C6 (st : Settings) (base : HostPath) (net : Net)
    (catalog : List (String × Guest)) (target_arch : String) (acc : FS)
    (guest : String) (g : Guest) (b : Bytes)
    (hg : List.lookup guest catalog = some g)
    (hex : (acc.withDir (pushPath base g.path)).pathExists
      (pushPath (pushPath base g.path) guest) = true)
    (hrd : acc.readFile (pushPath (pushPath base g.path) guest) = some b) :
    guestStep st base net catalog target_arch acc guest =
      ([Event.createDirAll (pushPath base g.path),
        Event.readFile (pushPath (pushPath base g.path) guest)],
       Except.ok ([{ kind := ManifestObjectType.GuestOS, name := guest,
                     description := g.description, data := ManifestObjectData.Bytes b,
                     properties := none }], acc.withDir (pushPath base g.path))) :=
  guestStep_existing st base net catalog target_arch acc guest g b hg hex hrd

/-- Witness for the amended C6 at the concrete existing guest. -/
theorem claim_C6_witness :
    List.lookup "g1" [("g1", gC6)] = some gC6 ∧
    (fsC6.withDir ["gdir"]).pathExists ["gdir", "g1"] = true ∧
    guestStep stC6 [] netNone [("g1", gC6)] "riscv64" fsC6 "g1" =
      ([Event.createDirAll ["gdir"], Event.readFile ["gdir", "g1"]],
       Except.ok ([{ kind := ManifestObjectType.GuestOS, name := "g1",
                     description := "guest six", data := ManifestObjectData.Bytes [7],
                     properties := none }], fsC6.withDir ["gdir"])) :=
  ⟨rfl, rfl, claim_C6 stC6 [] netNone [("g1", gC6)] "riscv64" fsC6 "g1" gC6 [7]
    rfl rfl rfl⟩

/-- C7: a target guest list naming a label absent from the guest catalog
fails the build with a fatal message containing both the offending label
and the target architecture name; stated for the first undefined label,
after any block of well-defined, already-present guests. -/
theorem claim_C7 (st : Settings) (fs : FS) (net : Net)
    (evb evs : List Event) (bObjs sObjs : List ManifestObject)
    (ta : String) (targets : List (String × Target)) (tgt : Target)
    (pre suf : List String) (guest : String)
    (hb : bannersPhase st st.config_dir fs = (evb, Except.ok bObjs))
    (hs : servicesPhase st st.config_dir fs = (evs, Except.ok sObjs))
    (hta : st.target_arch = some ta) (hng : st.no_guests = false)
    (htg : st.config.target = some targets)
    (hlk : List.lookup ta targets = some tgt)
    (hgl : tgt.guests = some (pre ++ guest :: suf))
    (hguest : List.lookup guest ((st.config.guest).getD []) = none)
    (hpre : ∀ x ∈ pre, ∃ gg b, List.lookup x ((st.config.guest).getD []) = some gg ∧
      fs.pathExists (pushPath (pushPath st.config_dir gg.path) x) = true ∧
      fs.readFile (pushPath (pushPath st.config_dir gg.path) x) = some b) :
    (∃ ev, mainManifest st fs net =
      (ev, Except.error (BuildError.fatal (guestUndefinedMsg guest ta)))) ∧
    guest.toList <:+: (guestUndefinedMsg guest ta).toList ∧
    ta.toList <:+: (guestUndefinedMsg guest ta).toList := by
  obtain ⟨ev, hev⟩ := runGuests_reach_undefined st st.config_dir net
    ((st.config.guest).getD []) ta fs guest suf hguest pre fs
    (fun p hp => hp) (fun p => rfl) hpre
  refine ⟨⟨evb ++ (evs ++ ev), ?_⟩, ?_, ?_⟩
  · unfold mainManifest
    rw [hb, hs]
    have hgp : guestsPhase st st.config_dir fs net =
        (ev, Except.error (BuildError.fatal (guestUndefinedMsg guest ta))) := by
      unfold guestsPhase
      rw [hta, hng, htg]
      dsimp only
      rw [hlk]
      dsimp only
      rw [hgl]
      dsimp only
      exact hev
    rw [hgp]
    simp [seqPhase]
  · unfold guestUndefinedMsg
    exact infix_of_infix_append_right _ _ _
      (infix_of_infix_append_right _ _ _
        (infix_of_infix_append_right _ _ _ (infix_toList_right "Guest " guest)))
  · unfold guestUndefinedMsg
    exact infix_of_infix_append_right _ _ _
      (infix_toList_right ("Guest " ++ guest ++ " required by target architecture ") ta)

/-- Concrete settings for the C7 witness: one well-defined, present guest
followed by the undefined label "ghostguest". -/
def gC7 : Guest := { path := "gdir7", url := none, description := "guest seven" }

/-- Concrete settings for C7. -/
def stC7 : Settings :=
  { config_dir := [], output_filename := none, target_arch := some "aarch64-none",
    quality := none, verbose := false, no_downloads := false, no_services := false,
    no_guests := false,
    config := { banners := none, services := none, service := none,
                guest := some [("g7", gC7)],
                target := some [("aarch64-none", { guests := some ["g7", "ghostguest"] })] } }

/-- Concrete file system for C7: the defined guest is present. -/
def fsC7 : FS :=
  { pathExists := fun p => p == ["gdir7", "g7"]
    readFile := fun p => if p = ["gdir7", "g7"] then some [9] else none }

/-- Witness for C7 at the concrete undefined guest label. -/
theorem claim_C7_witness :
    (∃ ev, mainManifest stC7 fsC7 netNone =
      (ev, Except.error (BuildError.fatal (guestUndefinedMsg "ghostguest" "aarch64-none")))) ∧
    "ghostguest".toList <:+: (guestUndefinedMsg "ghostguest" "aarch64-none").toList ∧
    "aarch64-none".toList <:+: (guestUndefinedMsg "ghostguest" "aarch64-none").toList :=
  claim_C7 stC7 fsC7 netNone [] [] [] [] "aarch64-none"
    [("aarch64-none", { guests := some ["g7", "ghostguest"] })]
    { guests := some ["g7", "ghostguest"] } ["g7"] [] "ghostguest"
    rfl rfl rfl rfl rfl rfl rfl rfl
    (by
      intro x hx
      simp at hx
      subst hx
      exact ⟨gC7, [9], rfl, rfl, rfl⟩)

/-- C8: in every successful run the manifest handed to the encoder is
ordered by category - every boot message precedes every system service,
every boot message precedes every guest OS, and every system service
precedes every guest OS. -/
theorem claim_C8 (st : Settings) (fs : FS) (net : Net) (tr : List Event)
    (m : List ManifestObject)
    (hm : mainManifest st fs net = (tr, Except.ok m)) :
    ∀ (i j : Fin m.length),
      ((m.get i).kind = ManifestObjectType.BootMsg →
        (m.get j).kind = ManifestObjectType.SystemService → i < j) ∧
      ((m.get i).kind = ManifestObjectType.BootMsg →
        (m.get j).kind = ManifestObjectType.GuestOS → i < j) ∧
      ((m.get i).kind = ManifestObjectType.SystemService →
        (m.get j).kind = ManifestObjectType.GuestOS → i < j) := by
  unfold mainManifest at hm
  obtain ⟨ev1, m1, ev2, m23, hban, hrest, rfl⟩ := seqPhase_ok _ _ _ _ hm
  obtain ⟨ev2a, m2, ev3, m3, hsvc, hgst, rfl⟩ := seqPhase_ok _ _ _ _ hrest
  have hbk := bannersPhase_kinds st st.config_dir fs ev1 m1 hban
  have hsk := servicesPhase_kinds st st.config_dir fs ev2a m2 hsvc
  have hgk := guestsPhase_kinds st st.config_dir fs net ev3 m3 hgst
  have hget := List.pairwise_iff_get.mp (pairwise_rank_of_segments m1 m2 m3 hbk hsk hgk)
  have key : ∀ (a b : Fin (m1 ++ (m2 ++ m3)).length),
      kindRank ((m1 ++ (m2 ++ m3)).get a).kind <
        kindRank ((m1 ++ (m2 ++ m3)).get b).kind → a < b := by
    intro a b hab
    rcases Nat.lt_trichotomy a.val b.val with hlt | heq | hgt
    · exact hlt
    · exfalso
      have hEq : a = b := Fin.ext heq
      rw [hEq] at hab
      exact lt_irrefl _ hab
    · exfalso
      have hle := hget b a hgt
      exact absurd (lt_of_lt_of_le hab hle) (lt_irrefl _)
  intro i j
  refine ⟨fun hi hj => key i j ?_, fun hi hj => key i j ?_, fun hi hj => key i j ?_⟩ <;>
    rw [hi, hj] <;> decide

/-- Concrete service and guest for the C8 witness. -/
def svcC8 : Service := { path := "svc", description := "svc desc", properties := none }

/-- Concrete guest for the C8 witness. -/
def gC8 : Guest := { path := "gdir8", url := none, description := "guest eight" }

/-- Concrete settings for C8: one welcome banner, one service, one guest. -/
def stC8 : Settings :=
  { config_dir := [], output_filename := none, target_arch := some "riscv64",
    quality := some "debug", verbose := false, no_downloads := false,
    no_services := false, no_guests := false,
    config := { banners := some { path := none, welcome := some "w.txt" },
                services := some { includeNames := some ["s1"] },
                service := some [("s1", svcC8)],
                guest := some [("g8", gC8)],
                target := some [("riscv64", { guests := some ["g8"] })] } }

/-- Concrete file system for C8: the three payload files are present. -/
def fsC8 : FS :=
  { pathExists := fun p => p == ["gdir8", "g8"]
    readFile := fun p =>
      if p = ["w.txt"] then some [1]
      else if p = ["svc", "target", "debug", "s1"] then some [2]
      else if p = ["gdir8", "g8"] then some [3]
      else none }

/-- The manifest of the concrete C8 run: banner, then service, then guest. -/
def mC8 : List ManifestObject :=
  [{ kind := ManifestObjectType.BootMsg, name := "w.txt",
     description := "Main boot banner text", data := ManifestObjectData.Bytes [1],
     properties := none },
   { kind := ManifestObjectType.SystemService, name := "s1",
     description := "svc desc", data := ManifestObjectData.Bytes [2],
     properties := none },
   { kind := ManifestObjectType.GuestOS, name := "g8",
     description := "guest eight", data := ManifestObjectData.Bytes [3],
     properties := none }]

/-- Witness for C8 on a concrete run producing one object of each kind. -/
theorem claim_C8_witness :
    mainManifest stC8 fsC8 netNone =
      ([Event.readFile ["w.txt"], Event.readFile ["svc", "target", "debug", "s1"],
        Event.createDirAll ["gdir8"], Event.readFile ["gdir8", "g8"]],
       Except.ok mC8) ∧
    ∀ (i j : Fin mC8.length),
      ((mC8.get i).kind = ManifestObjectType.BootMsg →
        (mC8.get j).kind = ManifestObjectType.SystemService → i < j) ∧
      ((mC8.get i).kind = ManifestObjectType.BootMsg →
        (mC8.get j).kind = ManifestObjectType.GuestOS → i < j) ∧
      ((mC8.get i).kind = ManifestObjectType.SystemService →
        (mC8.get j).kind = ManifestObjectType.GuestOS → i < j) :=
  ⟨rfl, claim_C8 stC8 fsC8 netNone
    [Event.readFile ["w.txt"], Event.readFile ["svc", "target", "debug", "s1"],
     Event.createDirAll ["gdir8"], Event.readFile ["gdir8", "g8"]] mC8 rfl⟩

end Mkdmfs
